import Mathlib

/-!
Verification of the polymarket-hourly-bot core against its specification.

The TypeScript sources are shallowly embedded: JS numbers become `ℚ`,
JS `Map`s become association lists with JS `Map.set` semantics, and the
module-level mutable state read or written by a function is passed and
returned explicitly.  Definitions keep the source names and mirror the
source control flow line by line.
-/

set_option maxHeartbeats 1000000

namespace Polybot

/-- A single price level of an orderbook ladder (`types.ts`, `OrderbookLevel`). -/
structure OrderbookLevel where
  price : ℚ
  size : ℚ
deriving DecidableEq, Repr

/-- One side of an orderbook: bid and ask ladders (`types.ts`, `Orderbook.UP` / `.DOWN`). -/
structure SideBook where
  bids : List OrderbookLevel
  asks : List OrderbookLevel
deriving DecidableEq, Repr

/-- The per-market orderbook (`types.ts`, `Orderbook`); window bookkeeping fields that
are never read by the dip detector are omitted. -/
structure Orderbook where
  market : String
  timestamp : ℚ
  UP : SideBook
  DOWN : SideBook
deriving DecidableEq, Repr

/-- Result record of `calculateFillPrice` (`dip-detector.ts` lines 38-69). -/
structure FillResult where
  avgPrice : ℚ
  totalCost : ℚ
  filledShares : ℚ
  levels : ℕ
deriving DecidableEq, Repr

/-- The level-walking loop of `calculateFillPrice` (`dip-detector.ts` lines 46-59),
returning `(totalCost, filledShares, levelsUsed)`.  The source loop breaks as soon
as the remaining share count is `<= 0`; each iteration takes
`min remaining level.size` shares at that level's price. -/
def fillAsks : List OrderbookLevel → ℚ → ℚ × ℚ × ℕ
  | [], _ => (0, 0, 0)
  | l :: ls, remaining =>
    if remaining ≤ 0 then (0, 0, 0)
    else
      let take := min remaining l.size
      let rest := fillAsks ls (remaining - take)
      (take * l.price + rest.1, take + rest.2.1, rest.2.2 + 1)

/-- `calculateFillPrice` from `dip-detector.ts` lines 38-69: volume-weighted average
fill price for a requested share count; guards the empty-ladder / non-positive
request case and the division by zero shares. -/
def calculateFillPrice (asks : List OrderbookLevel) (requestedShares : ℚ) : FillResult :=
  if asks = [] ∨ requestedShares ≤ 0 then ⟨0, 0, 0, 0⟩
  else
    let walk := fillAsks asks requestedShares
    ⟨if 0 < walk.2.1 then walk.1 / walk.2.1 else 0, walk.1, walk.2.1, walk.2.2⟩

lemma fillAsks_filled_nonneg (asks : List OrderbookLevel) (r : ℚ)
    (hsz : ∀ l ∈ asks, 0 ≤ l.size) (hr : 0 ≤ r) :
    0 ≤ (fillAsks asks r).2.1 := by
  induction asks generalizing r with
  | nil => simp [fillAsks]
  | cons l ls ih =>
    simp only [fillAsks]
    split
    · simp
    · rename_i hpos
      push_neg at hpos
      have hl : 0 ≤ l.size := hsz l (List.mem_cons_self l ls)
      have htake : 0 ≤ min r l.size := le_min hr hl
      have hrest : 0 ≤ (fillAsks ls (r - min r l.size)).2.1 :=
        ih (r - min r l.size) (fun x hx => hsz x (List.mem_cons_of_mem l hx))
          (sub_nonneg.mpr (min_le_left r l.size))
      dsimp only
      positivity

lemma fillAsks_filled_eq_min (asks : List OrderbookLevel) (r : ℚ)
    (hsz : ∀ l ∈ asks, 0 ≤ l.size) (hr : 0 ≤ r) :
    (fillAsks asks r).2.1 = min r ((asks.map (fun l => l.size)).sum) := by
  induction asks generalizing r with
  | nil =>
    simp only [fillAsks, List.map_nil, List.sum_nil]
    rw [min_eq_right hr]
  | cons l ls ih =>
    have hl : 0 ≤ l.size := hsz l (List.mem_cons_self l ls)
    have hsum : 0 ≤ ((ls.map (fun l => l.size)).sum) :=
      List.sum_nonneg (by
        intro x hx
        obtain ⟨a, ha, rfl⟩ := List.mem_map.mp hx
        exact hsz a (List.mem_cons_of_mem l ha))
    simp only [fillAsks]
    split
    · rename_i hle
      have hr0 : r = 0 := le_antisymm hle hr
      subst hr0
      simp only [List.map_cons, List.sum_cons]
      rw [min_eq_left (add_nonneg hl hsum)]
    · rename_i hpos
      push_neg at hpos
      have htake : 0 ≤ r - min r l.size := sub_nonneg.mpr (min_le_left r l.size)
      dsimp only
      rw [ih _ (fun x hx => hsz x (List.mem_cons_of_mem l hx)) htake]
      rcases le_total r l.size with hcase | hcase
      · rw [min_eq_left hcase]
        simp only [sub_self, List.map_cons, List.sum_cons]
        rw [min_eq_left hsum, add_zero]
        rw [min_eq_left (hcase.trans (le_add_of_nonneg_right hsum))]
      · rw [min_eq_right hcase]
        simp only [List.map_cons, List.sum_cons]
        rw [← min_add_add_left]
        rw [add_sub_cancel]

lemma fillAsks_cost_zero_of_filled_zero (asks : List OrderbookLevel) (r : ℚ)
    (hsz : ∀ l ∈ asks, 0 ≤ l.size) (hr : 0 ≤ r)
    (hf : (fillAsks asks r).2.1 = 0) :
    (fillAsks asks r).1 = 0 := by
  induction asks generalizing r with
  | nil => simp [fillAsks]
  | cons l ls ih =>
    simp only [fillAsks] at hf ⊢
    split at hf
    · rw [if_pos (by assumption)]
    · rename_i hpos
      rw [if_neg hpos]
      push_neg at hpos
      have hl : 0 ≤ l.size := hsz l (List.mem_cons_self l ls)
      have htake : 0 ≤ min r l.size := le_min hr hl
      have htail : 0 ≤ r - min r l.size := sub_nonneg.mpr (min_le_left r l.size)
      have hrest : 0 ≤ (fillAsks ls (r - min r l.size)).2.1 :=
        fillAsks_filled_nonneg ls _ (fun x hx => hsz x (List.mem_cons_of_mem l hx)) htail
      dsimp only at hf ⊢
      have hz1 : min r l.size = 0 := by linarith
      have hz2 : (fillAsks ls (r - min r l.size)).2.1 = 0 := by linarith
      rw [hz1] at hz2 ⊢
      rw [zero_mul, zero_add]
      exact ih (r - 0) (fun x hx => hsz x (List.mem_cons_of_mem l hx))
        (by simpa using hr) hz2

/-- Unfolding equation for `calculateFillPrice` off the guard. -/
lemma calculateFillPrice_eq (asks : List OrderbookLevel) (r : ℚ)
    (h : ¬(asks = [] ∨ r ≤ 0)) :
    calculateFillPrice asks r =
      ⟨if 0 < (fillAsks asks r).2.1 then (fillAsks asks r).1 / (fillAsks asks r).2.1 else 0,
       (fillAsks asks r).1, (fillAsks asks r).2.1, (fillAsks asks r).2.2⟩ := by
  rw [calculateFillPrice, if_neg h]

/-- C10 (confirmed): `calculateFillPrice` is total and guarded.  On an empty ladder
or a non-positive request it returns the all-zero record; otherwise (for a ladder
with non-negative sizes, the book invariant) the filled share count is
`min requestedShares (sum of all level sizes)`, the average price is
`totalCost / filledShares` exactly when something fills, and when nothing fills the
average price and total cost are 0 — the division is guarded, never an error.
(`totalCost` is, by the walk's definition, the sum of `price * portion` over the
portions actually taken at each level.) -/
theorem calculateFillPrice_total_and_guarded (asks : List OrderbookLevel)
    (requestedShares : ℚ) (hsz : ∀ l ∈ asks, 0 ≤ l.size) :
    (asks = [] ∨ requestedShares ≤ 0 →
      calculateFillPrice asks requestedShares = ⟨0, 0, 0, 0⟩) ∧
    (asks ≠ [] → 0 < requestedShares →
      (calculateFillPrice asks requestedShares).filledShares
        = min requestedShares ((asks.map (fun l => l.size)).sum)) ∧
    (0 < (calculateFillPrice asks requestedShares).filledShares →
      (calculateFillPrice asks requestedShares).avgPrice
        = (calculateFillPrice asks requestedShares).totalCost
            / (calculateFillPrice asks requestedShares).filledShares) ∧
    ((calculateFillPrice asks requestedShares).filledShares = 0 →
      (calculateFillPrice asks requestedShares).avgPrice = 0 ∧
      (calculateFillPrice asks requestedShares).totalCost = 0) := by
  refine ⟨fun h => by rw [calculateFillPrice, if_pos h], ?_, ?_, ?_⟩
  · intro hne hpos
    have hguard : ¬(asks = [] ∨ requestedShares ≤ 0) := by
      rintro (h | h)
      · exact hne h
      · exact absurd hpos (not_lt.mpr h)
    rw [calculateFillPrice_eq asks requestedShares hguard]
    exact fillAsks_filled_eq_min asks requestedShares hsz hpos.le
  · intro hpos
    by_cases hguard : asks = [] ∨ requestedShares ≤ 0
    · exfalso
      have hz : calculateFillPrice asks requestedShares = ⟨0, 0, 0, 0⟩ := by
        rw [calculateFillPrice, if_pos hguard]
      rw [hz] at hpos
      exact lt_irrefl 0 hpos
    · rw [calculateFillPrice_eq asks requestedShares hguard] at hpos ⊢
      have hpos' : 0 < (fillAsks asks requestedShares).2.1 := hpos
      show (if 0 < (fillAsks asks requestedShares).2.1
          then (fillAsks asks requestedShares).1 / (fillAsks asks requestedShares).2.1 else 0)
        = (fillAsks asks requestedShares).1 / (fillAsks asks requestedShares).2.1
      rw [if_pos hpos']
  · intro hzero
    by_cases hguard : asks = [] ∨ requestedShares ≤ 0
    · have hz : calculateFillPrice asks requestedShares = ⟨0, 0, 0, 0⟩ := by
        rw [calculateFillPrice, if_pos hguard]
      rw [hz]
      exact ⟨rfl, rfl⟩
    · rcases not_or.mp hguard with ⟨hne, hle⟩
      have hpos : 0 < requestedShares := not_le.mp hle
      rw [calculateFillPrice_eq asks requestedShares hguard] at hzero ⊢
      have hz : (fillAsks asks requestedShares).2.1 = 0 := hzero
      constructor
      · show (if 0 < (fillAsks asks requestedShares).2.1
            then (fillAsks asks requestedShares).1 / (fillAsks asks requestedShares).2.1 else 0) = 0
        rw [if_neg (by rw [hz]; exact lt_irrefl 0)]
      · show (fillAsks asks requestedShares).1 = 0
        exact fillAsks_cost_zero_of_filled_zero asks requestedShares hsz hpos.le hz

/-- Witness for C10 at a concrete two-level ladder: requesting 5 shares from
`[(0.5, 3), (0.6, 10)]` fills all 5 shares. -/
theorem calculateFillPrice_total_and_guarded_witness :
    (calculateFillPrice [⟨1/2, 3⟩, ⟨3/5, 10⟩] 5).filledShares
      = min 5 ((([⟨1/2, 3⟩, ⟨3/5, 10⟩] : List OrderbookLevel).map (fun l => l.size)).sum) ∧
    (calculateFillPrice [⟨1/2, 3⟩, ⟨3/5, 10⟩] 5).avgPrice
      = (calculateFillPrice [⟨1/2, 3⟩, ⟨3/5, 10⟩] 5).totalCost
          / (calculateFillPrice [⟨1/2, 3⟩, ⟨3/5, 10⟩] 5).filledShares := by
  have h := calculateFillPrice_total_and_guarded [⟨1/2, 3⟩, ⟨3/5, 10⟩] 5 (by
    intro l hl
    fin_cases hl <;> norm_num)
  have hguard : ¬(([⟨1/2, 3⟩, ⟨3/5, 10⟩] : List OrderbookLevel) = [] ∨ (5 : ℚ) ≤ 0) := by
    push_neg
    exact ⟨List.cons_ne_nil _ _, by norm_num⟩
  have hw : fillAsks [⟨1/2, 3⟩, ⟨3/5, 10⟩] 5 = (27/10, 5, 2) := by
    norm_num [fillAsks, min_def]
  have hval : calculateFillPrice [⟨1/2, 3⟩, ⟨3/5, 10⟩] 5 = ⟨27/50, 27/10, 5, 2⟩ := by
    rw [calculateFillPrice_eq _ _ hguard, hw]
    norm_num
  constructor
  · exact h.2.1 (List.cons_ne_nil _ _) (by norm_num)
  · exact h.2.2.1 (by rw [hval]; norm_num)

/-- `getTotalLiquidity` from `dip-detector.ts` lines 74-78: total size across levels,
optionally restricted to levels priced at or below `maxPrice`. -/
def getTotalLiquidity (asks : List OrderbookLevel) (maxPrice : Option ℚ) : ℚ :=
  ((asks.filter (fun l =>
      match maxPrice with
      | none => true
      | some mp => decide (l.price ≤ mp))).map (fun l => l.size)).sum

/-- `calculateSlippage` from `dip-detector.ts` lines 83-86. -/
def calculateSlippage (bestPrice avgFillPrice : ℚ) : ℚ :=
  if bestPrice = 0 then 0 else (avgFillPrice - bestPrice) / bestPrice

/-- The market timeframe (`config.ts`, `marketTimeframe`; the `'15m'` key exists in
`config.feeRates` even though this bot is configured for 1h/4h/daily). -/
inductive Timeframe
  | m15
  | h1
  | h4
  | daily
deriving DecidableEq, Repr

/-- `config.feeRates` from `config.ts` lines 86-92: a flat taker-fee rate per
timeframe — 3% for 15m markets, 0 for 1h/4h/daily. -/
def feeRates : Timeframe → ℚ
  | .m15 => 3/100
  | .h1 => 0
  | .h4 => 0
  | .daily => 0

/-- The trading parameters read by `detectDip` (`config.ts` `config.trading`, the
runtime-config threshold and max position size, and the module-level
`currentBalance`).  `feeRate` is `config.feeRates[config.marketTimeframe]`. -/
structure TradingConfig where
  threshold : ℚ
  minProfit : ℚ
  maxPositionSize : ℚ
  cooldownMs : ℚ
  riskPerTrade : ℚ
  maxSlippagePct : ℚ
  minProfitAfterSlippage : ℚ
  feeRate : ℚ
  balance : ℚ
deriving DecidableEq, Repr

/-- `DipOpportunity` from `types.ts` lines 41-68 (the wall-clock `detectedAt`
latency stamp is omitted from the model). -/
structure DipOpportunity where
  market : String
  timestamp : ℚ
  askUp : ℚ
  askDown : ℚ
  avgFillPriceUp : ℚ
  avgFillPriceDown : ℚ
  totalCost : ℚ
  bestCaseCost : ℚ
  expectedProfit : ℚ
  profitPercent : ℚ
  slippageUp : ℚ
  slippageDown : ℚ
  totalSlippage : ℚ
  liquidityUp : ℚ
  liquidityDown : ℚ
  levelsUsedUp : ℕ
  levelsUsedDown : ℕ
deriving DecidableEq, Repr

/-- The reason tag of a skip result (the source formats these into strings;
only the tag is modelled). -/
inductive SkipReason
  | cooldownActive
  | emptyOrderbook
  | priceTooLow
  | noDip
  | insufficientLiquidity
  | slippageTooHigh
  | profitAfterSlippageTooLow
  | profitTooSmall
deriving DecidableEq, Repr

/-- `DetectionResult` from `dip-detector.ts` lines 101-105. -/
inductive DetectionResult
  | skip (reason : SkipReason)
  | trade (opportunity : DipOpportunity)
deriving DecidableEq, Repr

/-- `ActiveDip` from `dip-detector.ts` lines 20-28. -/
structure ActiveDip where
  market : String
  startTime : ℚ
  startCost : ℚ
  minCost : ℚ
  maxLiquidityUp : ℚ
  maxLiquidityDown : ℚ
  updates : ℕ
deriving DecidableEq, Repr

/-- The dip duration records logged by `detectDip`: the DIP STARTED record
(line 207) and the DIP ENDED record with its duration (lines 170-182). -/
inductive DipEvent
  | started (ts cost : ℚ)
  | ended (ts duration : ℚ)
deriving DecidableEq, Repr

/-- The module-level mutable state of `dip-detector.ts` read and written by
`detectDip`, restricted to the slice for one market: `lastTradeTime.get(market) ?? 0`
and `activeDips.get(market)` (all map accesses in `detectDip` use the key
`orderbook.market`, so the per-market slices are independent). -/
structure DipState where
  lastTrade : ℚ
  activeDip : Option ActiveDip
deriving DecidableEq, Repr

/-- `detectDip` from `dip-detector.ts` lines 107-351, as a pure function of the
configuration, the per-market state slice and the orderbook.  Returns the
detection result, the updated state, and the dip duration records emitted.
The redundant `!bestAskUp || !bestAskDown` check (line 136) is unreachable after
the non-empty check and is dropped; the `canFill100` flag and the orderbook
snapshot write are log-only and omitted.  `TARGET_TRADE_SIZE = 100`,
`MIN_REALISTIC_PRICE = 0.05`. -/
def detectDip (cfg : TradingConfig) (st : DipState) (ob : Orderbook) :
    DetectionResult × DipState × List DipEvent :=
  if ob.timestamp - st.lastTrade < cfg.cooldownMs then
    (.skip .cooldownActive, st, [])
  else
    match ob.UP.asks, ob.DOWN.asks with
    | [], _ => (.skip .emptyOrderbook, st, [])
    | _ :: _, [] => (.skip .emptyOrderbook, st, [])
    | bestAskUp :: _, bestAskDown :: _ =>
      if bestAskUp.price < 1/20 ∨ bestAskDown.price < 1/20 then
        (.skip .priceTooLow, st, [])
      else
        let bestCaseCost := bestAskUp.price + bestAskDown.price
        let sharesFor100Up := 100 / bestAskUp.price
        let sharesFor100Down := 100 / bestAskDown.price
        let targetSharesFor100 := min sharesFor100Up sharesFor100Down
        let fillFor100Up := calculateFillPrice ob.UP.asks targetSharesFor100
        let fillFor100Down := calculateFillPrice ob.DOWN.asks targetSharesFor100
        if cfg.threshold ≤ bestCaseCost then
          match st.activeDip with
          | some activeDip =>
            (.skip .noDip, { st with activeDip := none },
              [.ended ob.timestamp (ob.timestamp - activeDip.startTime)])
          | none => (.skip .noDip, st, [])
        else
          let tracked : DipState × List DipEvent :=
            match st.activeDip with
            | none =>
              ({ st with activeDip := some {
                  market := ob.market
                  startTime := ob.timestamp
                  startCost := bestCaseCost
                  minCost := bestCaseCost
                  maxLiquidityUp := fillFor100Up.filledShares
                  maxLiquidityDown := fillFor100Down.filledShares
                  updates := 1 } },
                [.started ob.timestamp bestCaseCost])
            | some existingDip =>
              ({ st with activeDip := some { existingDip with
                  minCost := min existingDip.minCost bestCaseCost
                  maxLiquidityUp := max existingDip.maxLiquidityUp fillFor100Up.filledShares
                  maxLiquidityDown := max existingDip.maxLiquidityDown fillFor100Down.filledShares
                  updates := existingDip.updates + 1 } }, [])
          let positionSize := min (cfg.balance * cfg.riskPerTrade) cfg.maxPositionSize
          let estimatedSharesUp := positionSize / bestAskUp.price
          let estimatedSharesDown := positionSize / bestAskDown.price
          let targetShares := min estimatedSharesUp estimatedSharesDown
          let fillUp := calculateFillPrice ob.UP.asks targetShares
          let fillDown := calculateFillPrice ob.DOWN.asks targetShares
          if fillUp.filledShares < targetShares * (9/10) ∨
              fillDown.filledShares < targetShares * (9/10) then
            (.skip .insufficientLiquidity, tracked.1, tracked.2)
          else
            let actualShares := min fillUp.filledShares fillDown.filledShares
            let finalFillUp := calculateFillPrice ob.UP.asks actualShares
            let finalFillDown := calculateFillPrice ob.DOWN.asks actualShares
            let slippageUp := calculateSlippage bestAskUp.price finalFillUp.avgPrice
            let slippageDown := calculateSlippage bestAskDown.price finalFillDown.avgPrice
            let totalSlippage := (slippageUp + slippageDown) / 2
            if cfg.maxSlippagePct < totalSlippage then
              (.skip .slippageTooHigh, tracked.1, tracked.2)
            else
              let actualTotalCost := finalFillUp.avgPrice + finalFillDown.avgPrice
              let estimatedFees := actualTotalCost * cfg.feeRate
              let expectedProfit := 1 - actualTotalCost - estimatedFees
              let profitPercent := expectedProfit / actualTotalCost * 100
              if profitPercent < cfg.minProfitAfterSlippage * 100 then
                (.skip .profitAfterSlippageTooLow, tracked.1, tracked.2)
              else if expectedProfit < cfg.minProfit then
                (.skip .profitTooSmall, tracked.1, tracked.2)
              else
                (.trade {
                    market := ob.market
                    timestamp := ob.timestamp
                    askUp := bestAskUp.price
                    askDown := bestAskDown.price
                    avgFillPriceUp := finalFillUp.avgPrice
                    avgFillPriceDown := finalFillDown.avgPrice
                    totalCost := actualTotalCost
                    bestCaseCost := bestCaseCost
                    expectedProfit := expectedProfit
                    profitPercent := profitPercent
                    slippageUp := slippageUp
                    slippageDown := slippageDown
                    totalSlippage := totalSlippage
                    liquidityUp := getTotalLiquidity ob.UP.asks none
                    liquidityDown := getTotalLiquidity ob.DOWN.asks none
                    levelsUsedUp := finalFillUp.levels
                    levelsUsedDown := finalFillDown.levels }, tracked.1, tracked.2)

/-- Inversion on the Trade branch of `detectDip`: every returned opportunity passed
the slippage and profit gates, and its profit fields satisfy the formulas of
`dip-detector.ts` lines 262-266. -/
lemma detectDip_trade_properties (cfg : TradingConfig) (st : DipState) (ob : Orderbook)
    (opp : DipOpportunity) (st2 : DipState) (evts : List DipEvent)
    (h : detectDip cfg st ob = (.trade opp, st2, evts)) :
    cfg.minProfitAfterSlippage * 100 ≤ opp.profitPercent ∧
    cfg.minProfit ≤ opp.expectedProfit ∧
    opp.totalSlippage ≤ cfg.maxSlippagePct ∧
    opp.expectedProfit = 1 - opp.totalCost - opp.totalCost * cfg.feeRate ∧
    opp.profitPercent = opp.expectedProfit / opp.totalCost * 100 ∧
    opp.totalSlippage = (opp.slippageUp + opp.slippageDown) / 2 := by
  simp only [detectDip] at h
  split at h
  · exact absurd h (by simp)
  · split at h
    · exact absurd h (by simp)
    · exact absurd h (by simp)
    · split at h
      · exact absurd h (by simp)
      · split at h
        · split at h
          · exact absurd h (by simp)
          · exact absurd h (by simp)
        · split at h
          · exact absurd h (by simp)
          · split at h
            · exact absurd h (by simp)
            · split at h
              · exact absurd h (by simp)
              · split at h
                · exact absurd h (by simp)
                · rename_i hliq hslip hpp hmp
                  simp only [Prod.mk.injEq, DetectionResult.trade.injEq] at h
                  obtain ⟨hopp, hst, hev⟩ := h
                  subst hopp
                  exact ⟨not_lt.mp hpp, not_lt.mp hmp, not_lt.mp hslip, rfl, rfl, rfl⟩

/-- The 1h configuration of spec scenario 1: threshold 0.97, fees 0 (1h market),
position size capped at 100 USD. -/
def cfg1h : TradingConfig :=
  { threshold := 97/100, minProfit := 3/100, maxPositionSize := 100, cooldownMs := 30000,
    riskPerTrade := 1/10, maxSlippagePct := 1/50, minProfitAfterSlippage := 1/100,
    feeRate := 0, balance := 1000 }

/-- Spec scenario 1 orderbook: UP asks `[(0.48, 500)]`, DOWN asks `[(0.47, 500)]`. -/
def obScenario1 : Orderbook :=
  { market := "BTC", timestamp := 1000000,
    UP := { bids := [], asks := [⟨12/25, 500⟩] },
    DOWN := { bids := [], asks := [⟨47/100, 500⟩] } }

/-- The opportunity `detectDip` produces on scenario 1: note the per-share
`expectedProfit = 0.05`. -/
def oppScenario1 : DipOpportunity :=
  { market := "BTC", timestamp := 1000000, askUp := 12/25, askDown := 47/100,
    avgFillPriceUp := 12/25, avgFillPriceDown := 47/100, totalCost := 19/20,
    bestCaseCost := 19/20, expectedProfit := 1/20, profitPercent := 100/19,
    slippageUp := 0, slippageDown := 0, totalSlippage := 0,
    liquidityUp := 500, liquidityDown := 500, levelsUsedUp := 1, levelsUsedDown := 1 }

/-- The ActiveDip created on scenario 1 (the $100-FOK fill on each side is 625/3 shares). -/
def dipScenario1 : ActiveDip :=
  { market := "BTC", startTime := 1000000, startCost := 19/20, minCost := 19/20,
    maxLiquidityUp := 625/3, maxLiquidityDown := 625/3, updates := 1 }

lemma detectDip_scenario1_run :
    detectDip cfg1h ⟨0, none⟩ obScenario1 =
      (.trade oppScenario1, ⟨0, some dipScenario1⟩, [.started 1000000 (19/20)]) := by
  norm_num [detectDip, cfg1h, obScenario1, oppScenario1, dipScenario1, calculateFillPrice,
    fillAsks, calculateSlippage, getTotalLiquidity, min_def, max_def]

/-- C3 (confirmed): whenever detection returns Trade, the opportunity meets the
admission floors — profit percentage at or above the configured minimum, expected
profit at or above the configured minimum profit, and total slippage (the mean of
the per-side slippages) at or below the maximum slippage. -/
theorem detectDip_admission_floors (cfg : TradingConfig) (st : DipState) (ob : Orderbook)
    (opp : DipOpportunity) (st2 : DipState) (evts : List DipEvent)
    (h : detectDip cfg st ob = (.trade opp, st2, evts)) :
    cfg.minProfitAfterSlippage * 100 ≤ opp.profitPercent ∧
    cfg.minProfit ≤ opp.expectedProfit ∧
    opp.totalSlippage ≤ cfg.maxSlippagePct ∧
    opp.totalSlippage = (opp.slippageUp + opp.slippageDown) / 2 := by
  obtain ⟨h1, h2, h3, _, _, h6⟩ := detectDip_trade_properties cfg st ob opp st2 evts h
  exact ⟨h1, h2, h3, h6⟩

/-- Witness for C3 at the scenario-1 admission. -/
theorem detectDip_admission_floors_witness :
    cfg1h.minProfitAfterSlippage * 100 ≤ oppScenario1.profitPercent ∧
    cfg1h.minProfit ≤ oppScenario1.expectedProfit ∧
    oppScenario1.totalSlippage ≤ cfg1h.maxSlippagePct ∧
    oppScenario1.totalSlippage = (oppScenario1.slippageUp + oppScenario1.slippageDown) / 2 :=
  detectDip_admission_floors cfg1h ⟨0, none⟩ obScenario1 oppScenario1
    ⟨0, some dipScenario1⟩ [.started 1000000 (19/20)] detectDip_scenario1_run

/-- Modelled from the spec: the price-dependent per-side fee rate the specification
prescribes for 15-minute markets, `fee_rate_15m(p) = 2 * (p * (1 - p))^3`. -/
def specFeeRate15m (p : ℚ) : ℚ := 2 * (p * (1 - p))^3

/-- Modelled from the spec: the specification's total-fee formula
`cost_up * fee_rate(ask_up) + cost_down * fee_rate(ask_down)` for 15m markets. -/
def specTotalFees (costUp costDown askUp askDown : ℚ) : ℚ :=
  costUp * specFeeRate15m askUp + costDown * specFeeRate15m askDown

/-- A 15m-market configuration (threshold 0.94, flat fee rate
`config.feeRates['15m'] = 0.03`). -/
def cfg15m : TradingConfig :=
  { threshold := 94/100, minProfit := 3/100, maxPositionSize := 300, cooldownMs := 30000,
    riskPerTrade := 1/20, maxSlippagePct := 1/50, minProfitAfterSlippage := 1/100,
    feeRate := feeRates .m15, balance := 1000 }

/-- A 15m orderbook with both best asks at 0.45 and deep single-level ladders. -/
def ob45 : Orderbook :=
  { market := "BTC", timestamp := 1000000,
    UP := { bids := [], asks := [⟨9/20, 1000⟩] },
    DOWN := { bids := [], asks := [⟨9/20, 1000⟩] } }

/-- The opportunity `detectDip` produces on `ob45`: fees are the flat
`totalCost * 0.03 = 0.027`, so `expectedProfit = 1 - 0.9 - 0.027 = 0.073`. -/
def opp45 : DipOpportunity :=
  { market := "BTC", timestamp := 1000000, askUp := 9/20, askDown := 9/20,
    avgFillPriceUp := 9/20, avgFillPriceDown := 9/20, totalCost := 9/10,
    bestCaseCost := 9/10, expectedProfit := 73/1000, profitPercent := 73/9,
    slippageUp := 0, slippageDown := 0, totalSlippage := 0,
    liquidityUp := 1000, liquidityDown := 1000, levelsUsedUp := 1, levelsUsedDown := 1 }

/-- The ActiveDip created on `ob45` (the $100-FOK fill on each side is 2000/9 shares). -/
def dip45 : ActiveDip :=
  { market := "BTC", startTime := 1000000, startCost := 9/10, minCost := 9/10,
    maxLiquidityUp := 2000/9, maxLiquidityDown := 2000/9, updates := 1 }

lemma detectDip_ob45_run :
    detectDip cfg15m ⟨0, none⟩ ob45 =
      (.trade opp45, ⟨0, some dip45⟩, [.started 1000000 (9/10)]) := by
  norm_num [detectDip, cfg15m, ob45, opp45, dip45, feeRates, calculateFillPrice,
    fillAsks, calculateSlippage, getTotalLiquidity, min_def, max_def]

/-- C1 counterexample: on a 15m market the code charges the flat fee
`totalCost * 0.03` — at the `ob45` trade that is 0.027 per share-pair — whereas the
spec's price-dependent formula `cost_up * fee_rate_15m(ask_up) + cost_down *
fee_rate_15m(ask_down)` would give a different amount at the very same prices. -/
theorem detectDip_fee_not_price_dependent :
    (detectDip cfg15m ⟨0, none⟩ ob45 =
        (.trade opp45, ⟨0, some dip45⟩, [.started 1000000 (9/10)])) ∧
    1 - opp45.totalCost - opp45.expectedProfit = 27/1000 ∧
    specTotalFees (9/20) (9/20) (9/20) (9/20) ≠ 27/1000 := by
  refine ⟨detectDip_ob45_run, by norm_num [opp45], ?_⟩
  norm_num [specTotalFees, specFeeRate15m]

/-- C1 (corrected): the fee charged by `detectDip` is a flat rate per timeframe —
`config.feeRates` is 3% for 15m and 0 for 1h/4h/daily — applied to the per-share
total cost: every Trade result satisfies
`expectedProfit = 1 - totalCost - totalCost * feeRates tf`. -/
theorem detectDip_flat_fee_model :
    feeRates .m15 = 3/100 ∧ feeRates .h1 = 0 ∧ feeRates .h4 = 0 ∧ feeRates .daily = 0 ∧
    ∀ (tf : Timeframe) (cfg : TradingConfig) (st : DipState) (ob : Orderbook)
      (opp : DipOpportunity) (st2 : DipState) (evts : List DipEvent),
      cfg.feeRate = feeRates tf →
      detectDip cfg st ob = (.trade opp, st2, evts) →
      opp.expectedProfit = 1 - opp.totalCost - opp.totalCost * feeRates tf := by
  refine ⟨rfl, rfl, rfl, rfl, ?_⟩
  intro tf cfg st ob opp st2 evts hfr h
  have hp := (detectDip_trade_properties cfg st ob opp st2 evts h).2.2.2.1
  rw [← hfr]
  exact hp

/-- Witness for C1 at the concrete 15m trade on `ob45`. -/
theorem detectDip_flat_fee_model_witness :
    opp45.expectedProfit = 1 - opp45.totalCost - opp45.totalCost * feeRates .m15 :=
  detectDip_flat_fee_model.2.2.2.2 .m15 cfg15m ⟨0, none⟩ ob45 opp45
    ⟨0, some dip45⟩ [.started 1000000 (9/10)] rfl detectDip_ob45_run

/-- C2 counterexample: on spec scenario 1 (threshold 0.97, 1h fees, max trade 100,
UP asks `[(0.48, 500)]`, DOWN asks `[(0.47, 500)]`), detection does return Trade with
total_cost 0.95, but its `expectedProfit` is the per-share margin 0.05, not the
claimed `(1 - total_cost) * shares = (1 - 0.95) * (100 / 0.95) ≈ 5.26`. -/
theorem detectDip_scenario1_profit_counterexample :
    (detectDip cfg1h ⟨0, none⟩ obScenario1 =
        (.trade oppScenario1, ⟨0, some dipScenario1⟩, [.started 1000000 (19/20)])) ∧
    oppScenario1.expectedProfit
      ≠ (1 - oppScenario1.totalCost) * (100 / oppScenario1.totalCost) := by
  refine ⟨detectDip_scenario1_run, ?_⟩
  norm_num [oppScenario1]

/-- C2 (corrected): for every Trade result `expectedProfit` is the PER-SHARE margin
`1 - totalCost - fees` (never multiplied by the share count) and
`profitPercent = expectedProfit / totalCost * 100` (denominator is the per-share cost,
not the trade value); on spec scenario 1 the result is Trade with totalCost = 0.95,
expectedProfit = 0.05 and profitPercent = 100/19 ≈ 5.26%. -/
theorem detectDip_per_share_profit :
    (∀ (cfg : TradingConfig) (st : DipState) (ob : Orderbook)
        (opp : DipOpportunity) (st2 : DipState) (evts : List DipEvent),
      detectDip cfg st ob = (.trade opp, st2, evts) →
      opp.expectedProfit = 1 - opp.totalCost - opp.totalCost * cfg.feeRate ∧
      opp.profitPercent = opp.expectedProfit / opp.totalCost * 100) ∧
    (detectDip cfg1h ⟨0, none⟩ obScenario1 =
        (.trade oppScenario1, ⟨0, some dipScenario1⟩, [.started 1000000 (19/20)])) ∧
    oppScenario1.totalCost = 19/20 ∧ oppScenario1.expectedProfit = 1/20 ∧
    oppScenario1.profitPercent = 100/19 := by
  refine ⟨?_, detectDip_scenario1_run, rfl, rfl, rfl⟩
  intro cfg st ob opp st2 evts h
  obtain ⟨_, _, _, h4, h5, _⟩ := detectDip_trade_properties cfg st ob opp st2 evts h
  exact ⟨h4, h5⟩

/-- Witness for C2 applying the per-share profit formulas at the scenario-1 trade. -/
theorem detectDip_per_share_profit_witness :
    oppScenario1.expectedProfit
        = 1 - oppScenario1.totalCost - oppScenario1.totalCost * cfg1h.feeRate ∧
    oppScenario1.profitPercent = oppScenario1.expectedProfit / oppScenario1.totalCost * 100 :=
  detectDip_per_share_profit.1 cfg1h ⟨0, none⟩ obScenario1 oppScenario1
    ⟨0, some dipScenario1⟩ [.started 1000000 (19/20)] detectDip_scenario1_run


def bestCaseCostOf (ob : Orderbook) : ℚ :=
  match ob.UP.asks, ob.DOWN.asks with
  | u :: _, d :: _ => u.price + d.price
  | _, _ => 0

def fillFor100 (ob : Orderbook) : ℚ × ℚ :=
  match ob.UP.asks, ob.DOWN.asks with
  | u :: _, d :: _ =>
    ((calculateFillPrice ob.UP.asks (min (100 / u.price) (100 / d.price))).filledShares,
     (calculateFillPrice ob.DOWN.asks (min (100 / u.price) (100 / d.price))).filledShares)
  | _, _ => (0, 0)

def dipStep (threshold : ℚ) (ob : Orderbook) (cur : Option ActiveDip) :
    Option ActiveDip × List DipEvent :=
  if threshold ≤ bestCaseCostOf ob then
    match cur with
    | some dip => (none, [.ended ob.timestamp (ob.timestamp - dip.startTime)])
    | none => (none, [])
  else
    match cur with
    | none =>
      (some { market := ob.market
              startTime := ob.timestamp
              startCost := bestCaseCostOf ob
              minCost := bestCaseCostOf ob
              maxLiquidityUp := (fillFor100 ob).1
              maxLiquidityDown := (fillFor100 ob).2
              updates := 1 }, [.started ob.timestamp (bestCaseCostOf ob)])
    | some dip =>
      (some { dip with
              minCost := min dip.minCost (bestCaseCostOf ob)
              maxLiquidityUp := max dip.maxLiquidityUp (fillFor100 ob).1
              maxLiquidityDown := max dip.maxLiquidityDown (fillFor100 ob).2
              updates := dip.updates + 1 }, [])

def Qualifies (cfg : TradingConfig) (lastTrade : ℚ) (ob : Orderbook) : Prop :=
  cfg.cooldownMs ≤ ob.timestamp - lastTrade ∧
  match ob.UP.asks, ob.DOWN.asks with
  | u :: _, d :: _ => 1/20 ≤ u.price ∧ 1/20 ≤ d.price
  | _, _ => False

lemma detectDip_dip_tracking (cfg : TradingConfig) (st : DipState) (ob : Orderbook)
    (hq : Qualifies cfg st.lastTrade ob) :
    (detectDip cfg st ob).2
      = (⟨st.lastTrade, (dipStep cfg.threshold ob st.activeDip).1⟩,
         (dipStep cfg.threshold ob st.activeDip).2) := by
  obtain ⟨lt, ad⟩ := st
  obtain ⟨hcd, hpx⟩ := hq
  rcases hUP : ob.UP.asks with _ | ⟨u, us⟩
  · rw [hUP] at hpx
    rcases hDN : ob.DOWN.asks with _ | ⟨d, ds⟩ <;> rw [hDN] at hpx <;> exact hpx.elim
  rcases hDN : ob.DOWN.asks with _ | ⟨d, ds⟩
  · rw [hUP, hDN] at hpx
    exact hpx.elim
  rw [hUP, hDN] at hpx
  obtain ⟨hu, hd⟩ := hpx
  have hprice : ¬(u.price < 1/20 ∨ d.price < 1/20) := by
    push_neg
    exact ⟨hu, hd⟩
  simp only [detectDip, dipStep, bestCaseCostOf, fillFor100, hUP, hDN,
    if_neg (not_lt.mpr hcd), if_neg hprice]
  by_cases hth : cfg.threshold ≤ u.price + d.price
  · simp only [if_pos hth]
    cases ad <;> rfl
  · simp only [if_neg hth]
    cases ad <;> dsimp only <;> (repeat' split) <;> rfl

def runDetect (cfg : TradingConfig) : DipState → List Orderbook → DipState × List DipEvent
  | st, [] => (st, [])
  | st, ob :: rest =>
    let r := detectDip cfg st ob
    let k := runDetect cfg r.2.1 rest
    (k.1, r.2.2 ++ k.2)

def checkEvents : Option ℚ → List DipEvent → Bool
  | _, [] => true
  | none, .started ts _ :: rest => checkEvents (some ts) rest
  | none, .ended _ _ :: _ => false
  | some t0, .ended ts d :: rest => decide (d = ts - t0 ∧ 0 ≤ d) && checkEvents none rest
  | some _, .started _ _ :: _ => false

def DipOpenInv (ad : Option ActiveDip) (openStart : Option ℚ) (obs : List Orderbook) : Prop :=
  match ad, openStart with
  | none, none => True
  | some dip, some t0 => t0 = dip.startTime ∧ ∀ ob ∈ obs, dip.startTime ≤ ob.timestamp
  | _, _ => False

lemma runDetect_checkEvents (cfg : TradingConfig) (obs : List Orderbook) :
    ∀ (st : DipState) (openStart : Option ℚ),
    (∀ ob ∈ obs, Qualifies cfg st.lastTrade ob) →
    obs.Pairwise (fun a b => a.timestamp ≤ b.timestamp) →
    DipOpenInv st.activeDip openStart obs →
    checkEvents openStart (runDetect cfg st obs).2 = true := by
  induction obs with
  | nil =>
    intro st openStart _ _ _
    cases openStart <;> rfl
  | cons ob rest ih =>
    intro st openStart hq hpw hinv
    have hqob := hq ob (List.mem_cons_self ob rest)
    have hbr := detectDip_dip_tracking cfg st ob hqob
    have h1 : (detectDip cfg st ob).2.1
        = ⟨st.lastTrade, (dipStep cfg.threshold ob st.activeDip).1⟩ := by rw [hbr]
    have h2 : (detectDip cfg st ob).2.2 = (dipStep cfg.threshold ob st.activeDip).2 := by
      rw [hbr]
    have hrun : (runDetect cfg st (ob :: rest)).2
        = (detectDip cfg st ob).2.2 ++ (runDetect cfg (detectDip cfg st ob).2.1 rest).2 := rfl
    rw [hrun, h1, h2]
    have hqrest : ∀ ob2 ∈ rest,
        Qualifies cfg (DipState.mk st.lastTrade (dipStep cfg.threshold ob st.activeDip).1).lastTrade ob2 := by
      intro ob2 hm
      exact hq ob2 (List.mem_cons_of_mem ob hm)
    have hts := (List.pairwise_cons.mp hpw).1
    have hpwrest := (List.pairwise_cons.mp hpw).2
    by_cases hth : cfg.threshold ≤ bestCaseCostOf ob
    · rcases had : st.activeDip with _ | dip
      · have hstep : dipStep cfg.threshold ob none = (none, []) := by
          rw [dipStep, if_pos hth]
        rw [hstep]
        rw [List.nil_append]
        have hop : openStart = none := by
          rcases openStart with _ | t0
          · rfl
          · rw [had] at hinv
            exact absurd hinv (by simp [DipOpenInv])
        subst hop
        refine ih _ none hqrest hpwrest ?_
        simp [DipOpenInv]
      · have hstep : dipStep cfg.threshold ob (some dip)
            = (none, [.ended ob.timestamp (ob.timestamp - dip.startTime)]) := by
          rw [dipStep, if_pos hth]
        rw [hstep]
        rw [had] at hinv
        rcases openStart with _ | t0
        · exact absurd hinv (by simp [DipOpenInv])
        · simp only [DipOpenInv] at hinv
          obtain ⟨ht0, hbound⟩ := hinv
          subst ht0
          rw [List.singleton_append]
          simp only [checkEvents, Bool.and_eq_true]
          refine ⟨?_, ?_⟩
          · rw [decide_eq_true_eq]
            exact ⟨by trivial, sub_nonneg.mpr (hbound ob (List.mem_cons_self ob rest))⟩
          · exact ih _ none hqrest hpwrest (by simp [DipOpenInv])
    · rcases had : st.activeDip with _ | dip
      · have hstep : dipStep cfg.threshold ob none
            = (some { market := ob.market
                      startTime := ob.timestamp
                      startCost := bestCaseCostOf ob
                      minCost := bestCaseCostOf ob
                      maxLiquidityUp := (fillFor100 ob).1
                      maxLiquidityDown := (fillFor100 ob).2
                      updates := 1 }, [.started ob.timestamp (bestCaseCostOf ob)]) := by
          rw [dipStep, if_neg hth]
        rw [hstep]
        have hop : openStart = none := by
          rcases openStart with _ | t0
          · rfl
          · rw [had] at hinv
            exact absurd hinv (by simp [DipOpenInv])
        subst hop
        rw [List.singleton_append]
        simp only [checkEvents]
        exact ih _ (some ob.timestamp) hqrest hpwrest ⟨rfl, fun ob2 hm => hts ob2 hm⟩
      · have hstep : dipStep cfg.threshold ob (some dip)
            = (some { dip with
                      minCost := min dip.minCost (bestCaseCostOf ob)
                      maxLiquidityUp := max dip.maxLiquidityUp (fillFor100 ob).1
                      maxLiquidityDown := max dip.maxLiquidityDown (fillFor100 ob).2
                      updates := dip.updates + 1 }, []) := by
          rw [dipStep, if_neg hth]
        rw [hstep]
        rw [had] at hinv
        rcases openStart with _ | t0
        · exact absurd hinv (by simp [DipOpenInv])
        · simp only [DipOpenInv] at hinv
          obtain ⟨ht0, hbound⟩ := hinv
          subst ht0
          rw [List.nil_append]
          refine ih _ (some dip.startTime) hqrest hpwrest ?_
          exact ⟨rfl, fun ob2 hm => hbound ob2 (List.mem_cons_of_mem ob hm)⟩

theorem detectDip_activeDip_lifecycle :
    (∀ (cfg : TradingConfig) (st : DipState) (ob : Orderbook),
      Qualifies cfg st.lastTrade ob →
      ((bestCaseCostOf ob < cfg.threshold → st.activeDip = none →
        ∃ d, (detectDip cfg st ob).2.1.activeDip = some d ∧
          d.startTime = ob.timestamp ∧ d.startCost = bestCaseCostOf ob ∧
          d.minCost = bestCaseCostOf ob ∧ d.updates = 1 ∧
          (detectDip cfg st ob).2.2 = [.started ob.timestamp (bestCaseCostOf ob)]) ∧
      (∀ dip, bestCaseCostOf ob < cfg.threshold → st.activeDip = some dip →
        ∃ d, (detectDip cfg st ob).2.1.activeDip = some d ∧
          d.startTime = dip.startTime ∧
          d.minCost = min dip.minCost (bestCaseCostOf ob) ∧
          d.updates = dip.updates + 1 ∧
          (detectDip cfg st ob).2.2 = []) ∧
      (∀ dip, cfg.threshold ≤ bestCaseCostOf ob → st.activeDip = some dip →
        (detectDip cfg st ob).2.1.activeDip = none ∧
        (detectDip cfg st ob).2.2
          = [.ended ob.timestamp (ob.timestamp - dip.startTime)]))) ∧
    (∀ (cfg : TradingConfig) (st : DipState) (obs : List Orderbook),
      (∀ ob ∈ obs, Qualifies cfg st.lastTrade ob) →
      obs.Pairwise (fun a b => a.timestamp ≤ b.timestamp) →
      st.activeDip = none →
      checkEvents none (runDetect cfg st obs).2 = true) := by
  constructor
  · intro cfg st ob hq
    have hbr := detectDip_dip_tracking cfg st ob hq
    have h1 : (detectDip cfg st ob).2.1.activeDip = (dipStep cfg.threshold ob st.activeDip).1 := by
      rw [hbr]
    have h2 : (detectDip cfg st ob).2.2 = (dipStep cfg.threshold ob st.activeDip).2 := by
      rw [hbr]
    refine ⟨?_, ?_, ?_⟩
    · intro hlt hnone
      rw [h1, h2, hnone, dipStep, if_neg (not_le.mpr hlt)]
      exact ⟨_, rfl, rfl, rfl, rfl, rfl, rfl⟩
    · intro dip hlt hsome
      rw [h1, h2, hsome, dipStep, if_neg (not_le.mpr hlt)]
      exact ⟨_, rfl, rfl, rfl, rfl, rfl⟩
    · intro dip hge hsome
      rw [h1, h2, hsome, dipStep, if_pos hge]
      exact ⟨rfl, rfl⟩
  · intro cfg st obs hq hpw hnone
    refine runDetect_checkEvents cfg obs st none hq hpw ?_
    rw [hnone]
    simp [DipOpenInv]

def obEnd : Orderbook :=
  { market := "BTC", timestamp := 1000060,
    UP := { bids := [], asks := [⟨1/2, 500⟩] },
    DOWN := { bids := [], asks := [⟨1/2, 500⟩] } }

theorem detectDip_activeDip_lifecycle_witness :
    (∃ d, (detectDip cfg1h ⟨0, none⟩ obScenario1).2.1.activeDip = some d ∧
      d.startTime = obScenario1.timestamp ∧ d.startCost = bestCaseCostOf obScenario1 ∧
      d.minCost = bestCaseCostOf obScenario1 ∧ d.updates = 1 ∧
      (detectDip cfg1h ⟨0, none⟩ obScenario1).2.2
        = [.started obScenario1.timestamp (bestCaseCostOf obScenario1)]) ∧
    checkEvents none (runDetect cfg1h ⟨0, none⟩ [obScenario1, obEnd]).2 = true := by
  constructor
  · refine (detectDip_activeDip_lifecycle.1 cfg1h ⟨0, none⟩ obScenario1 ?_).1 ?_ rfl
    · constructor
      · norm_num [cfg1h, obScenario1]
      · norm_num [obScenario1]
    · norm_num [bestCaseCostOf, obScenario1, cfg1h]
  · refine detectDip_activeDip_lifecycle.2 cfg1h ⟨0, none⟩ [obScenario1, obEnd] ?_ ?_ rfl
    · intro ob hm
      fin_cases hm <;> constructor <;>
        norm_num [cfg1h, obScenario1, obEnd]
    · norm_num [List.pairwise_cons, obScenario1, obEnd]

/-- A `price_change` element of a push message (`market-data.ts` lines 1027-1031):
the parsed price, size and side plus the optional `best_bid` / `best_ask` fields. -/
structure PriceChange where
  price : ℚ
  size : ℚ
  side : String
  bestBid : Option ℚ
  bestAsk : Option ℚ
deriving DecidableEq, Repr

/-- The ladder mutation `handlePriceChange` performs on one side of the book
(`market-data.ts` lines 1034-1052; the UP and DOWN branches are identical): when
the message carries a `best_bid` the bid ladder becomes the single level
`[(best_bid, 1000)]` (size approximated); when it carries a `best_ask` the ask
ladder becomes `[(best_ask, 1000)]`; a SELL message without `best_ask` makes the
ask ladder `[(price, size)]`. -/
def applyPriceChangeSide (book : SideBook) (change : PriceChange) : SideBook :=
  let book1 :=
    match change.bestBid with
    | some b => { book with bids := [⟨b, 1000⟩] }
    | none => book
  match change.bestAsk with
  | some a => { book1 with asks := [⟨a, 1000⟩] }
  | none =>
    if change.side = "SELL" ∨ change.side = "sell" then
      { book1 with asks := [⟨change.price, change.size⟩] }
    else book1

/-- `handlePriceChange`'s orderbook update (`market-data.ts` lines 1033-1055):
the relevant side is mutated and the book timestamp refreshed (`now` stands for
`Date.now()`). -/
def handlePriceChange (ob : Orderbook) (isUpSide : Bool) (change : PriceChange)
    (now : ℚ) : Orderbook :=
  if isUpSide then { ob with UP := applyPriceChangeSide ob.UP change, timestamp := now }
  else { ob with DOWN := applyPriceChangeSide ob.DOWN change, timestamp := now }

/-- C4 counterexample: a price-change carrying `best_ask = 0.49` on a book whose
ask ladder was `[(0.5, 10), (0.6, 20)]` replaces the whole ladder with the single
level `(0.49, 1000)`: the previously stored deeper level `(0.6, 20)` — an ask
beyond the new best — is removed from the book by the message, contradicting the
claim that such levels are not invalidated. -/
theorem applyPriceChangeSide_drops_deeper_levels :
    (applyPriceChangeSide ⟨[], [⟨1/2, 10⟩, ⟨3/5, 20⟩]⟩
        ⟨49/100, 5, "BUY", none, some (49/100)⟩).asks = [⟨49/100, 1000⟩] ∧
    (⟨3/5, 20⟩ : OrderbookLevel) ∈ ([⟨1/2, 10⟩, ⟨3/5, 20⟩] : List OrderbookLevel) ∧
    (⟨3/5, 20⟩ : OrderbookLevel) ∉
      (applyPriceChangeSide ⟨[], [⟨1/2, 10⟩, ⟨3/5, 20⟩]⟩
        ⟨49/100, 5, "BUY", none, some (49/100)⟩).asks := by
  refine ⟨rfl, by simp, ?_⟩
  intro hmem
  have : (⟨3/5, 20⟩ : OrderbookLevel) ∈ ([⟨49/100, 1000⟩] : List OrderbookLevel) := hmem
  rw [List.mem_singleton] at this
  have h20 : (3 : ℚ)/5 = 49/100 := congrArg OrderbookLevel.price this
  norm_num at h20

/-- C4 (corrected): a price-change message does not update the first ladder element
in place — it REPLACES the relevant ladder with a single level.  With `best_ask`
present the ask ladder becomes exactly `[(best_ask, 1000)]` (opaque placeholder
size) and every deeper level is discarded until the next snapshot; with no
`best_ask` a SELL message replaces the asks by `[(price, size)]`, any other
message leaves the asks untouched; with `best_bid` present the bid ladder becomes
`[(best_bid, 1000)]`. -/
theorem applyPriceChangeSide_replaces_ladder (book : SideBook) (change : PriceChange) :
    (∀ a, change.bestAsk = some a →
      (applyPriceChangeSide book change).asks = [⟨a, 1000⟩]) ∧
    (change.bestAsk = none → (change.side = "SELL" ∨ change.side = "sell") →
      (applyPriceChangeSide book change).asks = [⟨change.price, change.size⟩]) ∧
    (change.bestAsk = none → ¬(change.side = "SELL" ∨ change.side = "sell") →
      (applyPriceChangeSide book change).asks = book.asks) ∧
    (∀ b, change.bestBid = some b →
      (applyPriceChangeSide book change).bids = [⟨b, 1000⟩]) := by
  refine ⟨?_, ?_, ?_, ?_⟩
  · intro a ha
    simp only [applyPriceChangeSide, ha]
  · intro ha hsell
    simp only [applyPriceChangeSide, ha, if_pos hsell]
  · intro ha hsell
    simp only [applyPriceChangeSide, ha, if_neg hsell]
    cases hb : change.bestBid <;> simp [hb]
  · intro b hb
    simp only [applyPriceChangeSide, hb]
    split
    · rfl
    · split <;> rfl

/-- Witness for C4: a message with `best_bid = 0.48` and `best_ask = 0.49` on the
two-level book collapses both ladders to their placeholder singletons. -/
theorem applyPriceChangeSide_replaces_ladder_witness :
    (applyPriceChangeSide ⟨[⟨12/25, 7⟩], [⟨1/2, 10⟩, ⟨3/5, 20⟩]⟩
        ⟨49/100, 5, "BUY", some (12/25), some (49/100)⟩).asks = [⟨49/100, 1000⟩] ∧
    (applyPriceChangeSide ⟨[⟨12/25, 7⟩], [⟨1/2, 10⟩, ⟨3/5, 20⟩]⟩
        ⟨49/100, 5, "BUY", some (12/25), some (49/100)⟩).bids = [⟨12/25, 1000⟩] := by
  have h := applyPriceChangeSide_replaces_ladder
    ⟨[⟨12/25, 7⟩], [⟨1/2, 10⟩, ⟨3/5, 20⟩]⟩ ⟨49/100, 5, "BUY", some (12/25), some (49/100)⟩
  exact ⟨h.1 (49/100) rfl, h.2.2.2 (12/25) rfl⟩

/-- `LiquidityAnalysis` from `types.ts` lines 108-115. -/
structure LiquidityAnalysis where
  side : String
  availableSize : ℚ
  vwap : ℚ
  slippage : ℚ
  levels : ℕ
  fillable : Bool
deriving DecidableEq, Repr

/-- `analyzeSideLiquidity` from `liquidity-analyzer.ts` lines 20-64: VWAP and
slippage of filling `targetSize` shares against the ladder (an empty ladder
reports 100% slippage, not fillable).  The walking loop of lines 42-50 is the
same loop as in `calculateFillPrice` and is embedded by `fillAsks`; `fillable`
is `remainingSize <= 0`, i.e. `targetSize - totalFilled <= 0`. -/
def analyzeSideLiquidity (asks : List OrderbookLevel) (targetSize : ℚ)
    (side : String) : LiquidityAnalysis :=
  match asks with
  | [] => ⟨side, 0, 0, 1, 0, false⟩
  | bestLevel :: _ =>
    let walk := fillAsks asks targetSize
    let vwap := if 0 < walk.2.1 then walk.1 / walk.2.1 else 0
    let slippage :=
      if 0 < bestLevel.price then (vwap - bestLevel.price) / bestLevel.price else 0
    ⟨side, walk.2.1, vwap, slippage, walk.2.2, decide (targetSize - walk.2.1 ≤ 0)⟩

/-- `AggregatedLiquidity` from `liquidity-analyzer.ts` lines 7-14. -/
structure AggregatedLiquidity where
  up : LiquidityAnalysis
  down : LiquidityAnalysis
  combinedSlippage : ℚ
  adjustedTotalCost : ℚ
  adjustedProfit : ℚ
  profitable : Bool
deriving DecidableEq, Repr

/-- `analyzeArbitrageLiquidity` from `liquidity-analyzer.ts` lines 70-100
(`minProfit` stands for the `config.trading.minProfit` read on line 90). -/
def analyzeArbitrageLiquidity (minProfit : ℚ) (asksUp asksDown : List OrderbookLevel)
    (targetSize : ℚ) : AggregatedLiquidity :=
  let up := analyzeSideLiquidity asksUp targetSize "UP"
  let down := analyzeSideLiquidity asksDown targetSize "DOWN"
  let bestAskUp := ((asksUp.head?).map (fun l => l.price)).getD 0
  let bestAskDown := ((asksDown.head?).map (fun l => l.price)).getD 0
  let idealCost := bestAskUp + bestAskDown
  let actualCost := up.vwap + down.vwap
  let combinedSlippage :=
    if 0 < idealCost then (actualCost - idealCost) / idealCost else 0
  let adjustedProfit := 1 - actualCost
  ⟨up, down, combinedSlippage, actualCost, adjustedProfit,
    decide (minProfit < adjustedProfit)⟩

/-- `ExtendedSizingResult` from `dip-detector.ts` lines 406-415 (the log-only
`reason` string is omitted). -/
structure ExtendedSizingResult where
  sizeUp : ℚ
  sizeDown : ℚ
  totalCost : ℚ
  liquidityAnalysis : AggregatedLiquidity
  estimatedSlippage : ℚ
  adjustedProfit : ℚ
  viable : Bool
deriving DecidableEq, Repr

/-- The liquidity analysis of `calculatePositionSizeWithLiquidity` (lines 427-437):
analyze both ladders toward `maxShares = min(200/askUp, 200/askDown)`. -/
def fakAnalysis (minProfit : ℚ) (opp : DipOpportunity) (ob : Orderbook) :
    AggregatedLiquidity :=
  analyzeArbitrageLiquidity minProfit ob.UP.asks ob.DOWN.asks
    (min (200 / opp.askUp) (200 / opp.askDown))

/-- `fillableShares` of `calculatePositionSizeWithLiquidity` (line 440). -/
def fakFillableShares (minProfit : ℚ) (opp : DipOpportunity) (ob : Orderbook) : ℚ :=
  min (fakAnalysis minProfit opp ob).up.availableSize
    (fakAnalysis minProfit opp ob).down.availableSize

/-- `fillableUSDC` of `calculatePositionSizeWithLiquidity` (line 443): the share
count valued at the AVERAGE of the two ask prices. -/
def fakFillableUSDC (minProfit : ℚ) (opp : DipOpportunity) (ob : Orderbook) : ℚ :=
  fakFillableShares minProfit opp ob * (opp.askUp + opp.askDown) / 2

/-- `calculatePositionSizeWithLiquidity` from `dip-detector.ts` lines 423-482:
FAK sizing with floor `MIN_TRADE_USDC = 50` and cap `MAX_TRADE_USDC = 200`
(lines 419-420). -/
def calculatePositionSizeWithLiquidity (minProfit : ℚ) (opportunity : DipOpportunity)
    (orderbook : Orderbook) : ExtendedSizingResult :=
  let analysis := fakAnalysis minProfit opportunity orderbook
  let fillableShares := fakFillableShares minProfit opportunity orderbook
  let fillableUSDC := fakFillableUSDC minProfit opportunity orderbook
  let chosen :=
    if fillableUSDC < 50 then ((0 : ℚ), false)
    else if 200 < fillableUSDC then
      (200 / ((opportunity.askUp + opportunity.askDown) / 2), true)
    else (fillableShares, true)
  let costUp := chosen.1 * opportunity.avgFillPriceUp
  let costDown := chosen.1 * opportunity.avgFillPriceDown
  ⟨chosen.1, chosen.1, costUp + costDown, analysis, analysis.combinedSlippage,
    analysis.adjustedProfit, chosen.2⟩

/-- The opportunity of the C6 counterexample: both asks at 0.50 with exact fills. -/
def oppC6 : DipOpportunity :=
  { market := "BTC", timestamp := 1000000, askUp := 1/2, askDown := 1/2,
    avgFillPriceUp := 1/2, avgFillPriceDown := 1/2, totalCost := 1,
    bestCaseCost := 1, expectedProfit := 0, profitPercent := 0,
    slippageUp := 0, slippageDown := 0, totalSlippage := 0,
    liquidityUp := 1000, liquidityDown := 1000, levelsUsedUp := 1, levelsUsedDown := 1 }

/-- The orderbook of the C6 counterexample: deep single-level ladders of 1000
shares at 0.50 on each side. -/
def obC6 : Orderbook :=
  { market := "BTC", timestamp := 1000000,
    UP := { bids := [], asks := [⟨1/2, 1000⟩] },
    DOWN := { bids := [], asks := [⟨1/2, 1000⟩] } }

/-- C6 counterexample: on `oppC6`/`obC6` the code sizes the trade at 400 shares
(400 USD total cost) — the claim's formula `min(100 / (askUp + askDown),
liquidity_up, liquidity_down)` would give 100 shares and a trade value capped at
100 USD, so the code does not floor at 20 or cap at 100. -/
theorem calculatePositionSizeWithLiquidity_not_capped_at_100 :
    (calculatePositionSizeWithLiquidity (3/100) oppC6 obC6).sizeUp = 400 ∧
    (calculatePositionSizeWithLiquidity (3/100) oppC6 obC6).totalCost = 400 ∧
    min (100 / (oppC6.askUp + oppC6.askDown))
      (min (getTotalLiquidity obC6.UP.asks none) (getTotalLiquidity obC6.DOWN.asks none))
      = 100 ∧
    ¬((calculatePositionSizeWithLiquidity (3/100) oppC6 obC6).sizeUp
        * (oppC6.askUp + oppC6.askDown) ≤ 100) := by
  have hA : fakAnalysis (3/100) oppC6 obC6
      = ⟨⟨"UP", 400, 1/2, 0, 1, true⟩, ⟨"DOWN", 400, 1/2, 0, 1, true⟩, 0, 1, 0, false⟩ := by
    norm_num [fakAnalysis, analyzeArbitrageLiquidity, analyzeSideLiquidity, fillAsks,
      oppC6, obC6, min_def]
  have hS : fakFillableShares (3/100) oppC6 obC6 = 400 := by
    rw [fakFillableShares, hA]
    norm_num
  have hU : fakFillableUSDC (3/100) oppC6 obC6 = 200 := by
    rw [fakFillableUSDC, hS]
    norm_num [oppC6]
  have hr : calculatePositionSizeWithLiquidity (3/100) oppC6 obC6
      = ⟨400, 400, 400, ⟨⟨"UP", 400, 1/2, 0, 1, true⟩, ⟨"DOWN", 400, 1/2, 0, 1, true⟩,
          0, 1, 0, false⟩, 0, 0, true⟩ := by
    rw [calculatePositionSizeWithLiquidity, hA, hS, hU]
    norm_num [oppC6]
  rw [hr]
  refine ⟨rfl, rfl, ?_, ?_⟩
  · norm_num [oppC6, obC6, getTotalLiquidity, min_def]
  · norm_num [oppC6]

/-- C6 (corrected): the FAK sizing of `calculatePositionSizeWithLiquidity` uses the
constants 50/200, not 20/100, and a different value formula: `fillableShares` is
`min(up.availableSize, down.availableSize)` of the two ladders walked toward
`min(200/askUp, 200/askDown)` shares; the nominal value is `fillableShares *
(askUp + askDown) / 2` (half the combined price); below 50 USDC the trade is
rejected as not viable with size 0, above 200 USDC the share count is recomputed
as `200 / ((askUp + askDown) / 2)`, and otherwise all fillable shares are taken;
both legs get the same size and totalCost prices them at the average fill prices. -/
theorem calculatePositionSizeWithLiquidity_fak_bounds (minProfit : ℚ)
    (opp : DipOpportunity) (ob : Orderbook) :
    (fakFillableUSDC minProfit opp ob < 50 →
      (calculatePositionSizeWithLiquidity minProfit opp ob).viable = false ∧
      (calculatePositionSizeWithLiquidity minProfit opp ob).sizeUp = 0) ∧
    (50 ≤ fakFillableUSDC minProfit opp ob →
      (calculatePositionSizeWithLiquidity minProfit opp ob).viable = true) ∧
    (200 < fakFillableUSDC minProfit opp ob →
      (calculatePositionSizeWithLiquidity minProfit opp ob).sizeUp
        = 200 / ((opp.askUp + opp.askDown) / 2)) ∧
    (50 ≤ fakFillableUSDC minProfit opp ob → fakFillableUSDC minProfit opp ob ≤ 200 →
      (calculatePositionSizeWithLiquidity minProfit opp ob).sizeUp
        = fakFillableShares minProfit opp ob) ∧
    (calculatePositionSizeWithLiquidity minProfit opp ob).sizeDown
      = (calculatePositionSizeWithLiquidity minProfit opp ob).sizeUp ∧
    (calculatePositionSizeWithLiquidity minProfit opp ob).totalCost
      = (calculatePositionSizeWithLiquidity minProfit opp ob).sizeUp * opp.avgFillPriceUp
        + (calculatePositionSizeWithLiquidity minProfit opp ob).sizeUp * opp.avgFillPriceDown := by
  refine ⟨?_, ?_, ?_, ?_, ?_, ?_⟩
  · intro hlt
    simp only [calculatePositionSizeWithLiquidity, if_pos hlt]
    exact ⟨by trivial, by trivial⟩
  · intro hge
    simp only [calculatePositionSizeWithLiquidity, if_neg (not_lt.mpr hge)]
    split <;> rfl
  · intro hgt
    have h50 : ¬(fakFillableUSDC minProfit opp ob < 50) := by
      push_neg
      linarith
    simp only [calculatePositionSizeWithLiquidity, if_neg h50, if_pos hgt]
  · intro hge hle
    simp only [calculatePositionSizeWithLiquidity, if_neg (not_lt.mpr hge),
      if_neg (not_lt.mpr hle)]
  · simp only [calculatePositionSizeWithLiquidity]
  · simp only [calculatePositionSizeWithLiquidity]

/-- Witness for C6 at the `oppC6`/`obC6` sizing (nominal value exactly 200 USDC,
so the trade is viable and takes all 400 fillable shares). -/
theorem calculatePositionSizeWithLiquidity_fak_bounds_witness :
    (calculatePositionSizeWithLiquidity (3/100) oppC6 obC6).viable = true ∧
    (calculatePositionSizeWithLiquidity (3/100) oppC6 obC6).sizeUp
      = fakFillableShares (3/100) oppC6 obC6 := by
  have h := calculatePositionSizeWithLiquidity_fak_bounds (3/100) oppC6 obC6
  have hA : fakAnalysis (3/100) oppC6 obC6
      = ⟨⟨"UP", 400, 1/2, 0, 1, true⟩, ⟨"DOWN", 400, 1/2, 0, 1, true⟩, 0, 1, 0, false⟩ := by
    norm_num [fakAnalysis, analyzeArbitrageLiquidity, analyzeSideLiquidity, fillAsks,
      oppC6, obC6, min_def]
  have hU : fakFillableUSDC (3/100) oppC6 obC6 = 200 := by
    rw [fakFillableUSDC, fakFillableShares, hA]
    norm_num [oppC6]
  exact ⟨h.2.1 (by rw [hU]; norm_num), h.2.2.2.1 (by rw [hU]; norm_num) (by rw [hU])⟩


/-- JS `Map.set` on an association list: replace the value in place when the key
exists, else append (JS Maps preserve insertion order). -/
def mapSet {α : Type} (m : List (String × α)) (k : String) (v : α) :
    List (String × α) :=
  if m.any (fun p => p.1 == k) then
    m.map (fun p => if p.1 == k then (k, v) else p)
  else m ++ [(k, v)]

/-- JS `Map.get` on an association list. -/
def mapGet {α : Type} : List (String × α) → String → Option α
  | [], _ => none
  | p :: rest, k => if p.1 == k then some p.2 else mapGet rest k

/-- JS `Map.delete` on an association list. -/
def mapDelete {α : Type} (m : List (String × α)) (k : String) : List (String × α) :=
  m.filter (fun p => !(p.1 == k))

lemma mapGet_mapDelete {α : Type} (m : List (String × α)) (k : String) :
    mapGet (mapDelete m k) k = none := by
  induction m with
  | nil => rfl
  | cons p rest ih =>
    by_cases h : p.1 == k
    · have hdrop : mapDelete (p :: rest) k = mapDelete rest k := by
        simp [mapDelete, List.filter_cons, h]
      rw [hdrop]
      exact ih
    · have hkeep : mapDelete (p :: rest) k = p :: mapDelete rest k := by
        simp [mapDelete, List.filter_cons, h]
      rw [hkeep, mapGet, if_neg (by simp [h])]
      exact ih

/-- `MarketTokens` from `market-data.ts` lines 13-23. -/
structure MarketTokens where
  symbol : String
  conditionId : String
  tokenIdUp : String
  tokenIdDown : String
  question : String
  windowOffset : ℕ
  windowLabel : String
  periodTimestamp : ℤ
deriving DecidableEq, Repr

/-- The catalog-population loop of `initMarketData` (`market-data.ts` lines 95-120):
for every configured symbol and every offset up to `FUTURE_WINDOWS_TO_MONITOR`, the
fetched record is stored under the key `symbol ++ "_" ++ offset` (the `mapKey` of
line 100); a window the exchange does not list yet (`fetched` returns none) is
simply absent.  `fetched` stands for `fetchMarketTokensForPeriod`. -/
def initMarketData (symbols : List String) (futureWindows : ℕ)
    (fetched : String → ℕ → Option MarketTokens) : List (String × MarketTokens) :=
  symbols.foldl (fun catalog sym =>
    (List.range (futureWindows + 1)).foldl (fun catalog offset =>
      match fetched sym offset with
      | some tokens => mapSet catalog (sym ++ "_" ++ toString offset) tokens
      | none => catalog) catalog) []

/-- `executeWindowRotation` from `market-data.ts` lines 789-830, catalog part: when
pre-fetched tokens exist they are written with `marketTokens.set(symbol, tokens)` —
keyed by the BARE symbol, not the `symbol_offset` mapKey used by `initMarketData`;
otherwise each symbol is freshly fetched (`fetchMarketTokens`, which also returns
records with `windowOffset = 0`) and stored under the bare symbol as well. -/
def executeWindowRotation (marketTokens : List (String × MarketTokens))
    (nextWindowTokens : List (String × MarketTokens)) (symbols : List String)
    (fetchTokens : String → Option MarketTokens) : List (String × MarketTokens) :=
  if nextWindowTokens.length > 0 then
    nextWindowTokens.foldl (fun catalog p => mapSet catalog p.1 p.2) marketTokens
  else
    symbols.foldl (fun catalog sym =>
      match fetchTokens sym with
      | some tokens => mapSet catalog sym tokens
      | none => catalog) marketTokens

/-- A concrete fetched record for the C7 run. -/
def tokRec (sym : String) (off : ℕ) : MarketTokens :=
  { symbol := sym, conditionId := "cond", tokenIdUp := sym ++ "U" ++ toString off,
    tokenIdDown := sym ++ "D" ++ toString off, question := "q",
    windowOffset := off, windowLabel := if off = 0 then "now" else "+" ++ toString off,
    periodTimestamp := 1000 + off }

/-- The record `prefetchNextWindowTokens` stages for BTC (`market-data.ts` lines
762-772: keyed by the bare symbol, `windowOffset := 0`, `windowLabel := "now"`). -/
def tokNext : MarketTokens :=
  { symbol := "BTC", conditionId := "cond2", tokenIdUp := "NU", tokenIdDown := "ND",
    question := "q2", windowOffset := 0, windowLabel := "now", periodTimestamp := 4600 }

/-- C7 (code bug): after a rotation the catalog violates the one-record-per
(symbol, offset) invariant.  `initMarketData` keys records by `symbol_offset`
("BTC_0", "BTC_1", "BTC_2"), but `executeWindowRotation` writes the pre-fetched
current-window record under the bare key "BTC"; the stale "BTC_0" record remains,
so the catalog holds TWO records for (BTC, offset 0) — and the stale future-window
records are never replaced either. -/
theorem executeWindowRotation_duplicate_current_window :
    (executeWindowRotation (initMarketData ["BTC"] 2 (fun s o => some (tokRec s o)))
        [("BTC", tokNext)] ["BTC"] (fun _ => none)).map (fun p => p.1)
      = ["BTC_0", "BTC_1", "BTC_2", "BTC"] ∧
    ((executeWindowRotation (initMarketData ["BTC"] 2 (fun s o => some (tokRec s o)))
        [("BTC", tokNext)] ["BTC"] (fun _ => none)).filter
      (fun p => p.2.symbol == "BTC" && p.2.windowOffset == 0)).length = 2 := by
  constructor <;> rfl

/-- Position outcome (`types.ts`: `'UP' | 'DOWN'`). -/
inductive Outcome
  | up
  | down
deriving DecidableEq, Repr

/-- `PositionStatus` from `types.ts` line 71 (`'open' | 'resolved' | 'failed'`). -/
inductive PositionStatus
  | opened
  | resolved
  | failed
deriving DecidableEq, Repr

/-- `Position` from `types.ts` lines 73-105 (latency fields omitted; they are not
read by the settlement path). -/
structure Position where
  id : String
  market : String
  openedAt : ℚ
  resolvedAt : Option ℚ
  status : PositionStatus
  costUp : ℚ
  costDown : ℚ
  sizeUp : ℚ
  sizeDown : ℚ
  totalCost : ℚ
  expectedProfit : ℚ
  askUp : ℚ
  askDown : ℚ
  liquidityUp : ℚ
  liquidityDown : ℚ
  outcome : Option Outcome
  payout : Option ℚ
  fees : Option ℚ
  actualProfit : Option ℚ
deriving DecidableEq, Repr

/-- The state of `position-manager.ts`: the in-memory `openPositions` cache and the
durable store behind `savePosition` (`db.ts`, upsert by id). -/
structure PMState where
  openPositions : List (String × Position)
  db : List (String × Position)
deriving DecidableEq, Repr

/-- `savePosition` (`db.ts`): upsert by position id. -/
def savePosition (db : List (String × Position)) (p : Position) :
    List (String × Position) :=
  mapSet db p.id p

/-- `resolvePosition` from `position-manager.ts` lines 88-128: looks the id up in
the open-position cache; a miss returns null and changes nothing; a hit writes the
resolved position to the store and removes it from the cache (`now` stands for
`Date.now()`). -/
def resolvePosition (st : PMState) (positionId : String) (outcome : Outcome)
    (payout fees now : ℚ) : Option Position × PMState :=
  match mapGet st.openPositions positionId with
  | none => (none, st)
  | some position =>
    let resolved : Position :=
      { position with
        status := .resolved
        resolvedAt := some now
        outcome := some outcome
        payout := some payout
        fees := some fees
        actualProfit := some (payout - position.totalCost - fees) }
    (some resolved,
      { openPositions := mapDelete st.openPositions positionId
        db := savePosition st.db resolved })

/-- `markPositionFailed` from `position-manager.ts` lines 130-149. -/
def markPositionFailed (st : PMState) (positionId : String) (now : ℚ) : PMState :=
  match mapGet st.openPositions positionId with
  | none => st
  | some position =>
    let failed : Position :=
      { position with
        status := .failed
        resolvedAt := some now
        actualProfit := some (-position.totalCost) }
    { openPositions := mapDelete st.openPositions positionId
      db := savePosition st.db failed }

/-- C8 (confirmed): a position settles at most once.  After a successful
`resolvePosition` (and likewise after a `markPositionFailed` that found the
position), the id is gone from the open-position cache, so every further
settlement attempt on the same id is rejected: it returns null / does nothing and
leaves both the durable store and the cache exactly as they were. -/
theorem position_settles_at_most_once :
    (∀ (st : PMState) (positionId : String) (o : Outcome) (payout fees now : ℚ)
        (p : Position) (st1 : PMState),
      resolvePosition st positionId o payout fees now = (some p, st1) →
      p.status = .resolved ∧
      (∀ o2 payout2 fees2 now2,
        resolvePosition st1 positionId o2 payout2 fees2 now2 = (none, st1)) ∧
      (∀ now3, markPositionFailed st1 positionId now3 = st1)) ∧
    (∀ (st : PMState) (positionId : String) (now : ℚ) (p : Position),
      mapGet st.openPositions positionId = some p →
      (∀ o2 payout2 fees2 now2,
        resolvePosition (markPositionFailed st positionId now) positionId
          o2 payout2 fees2 now2 = (none, markPositionFailed st positionId now)) ∧
      (∀ now3, markPositionFailed (markPositionFailed st positionId now) positionId now3
          = markPositionFailed st positionId now)) := by
  constructor
  · intro st positionId o payout fees now p st1 h
    rw [resolvePosition] at h
    cases hg : mapGet st.openPositions positionId with
    | none =>
      rw [hg] at h
      exact absurd h (by simp)
    | some pos =>
      rw [hg] at h
      simp only [Prod.mk.injEq, Option.some.injEq] at h
      obtain ⟨hp, hst⟩ := h
      subst hst
      have hnone : mapGet (mapDelete st.openPositions positionId) positionId = none :=
        mapGet_mapDelete st.openPositions positionId
      refine ⟨?_, ?_, ?_⟩
      · rw [← hp]
      · intro o2 payout2 fees2 now2
        rw [resolvePosition]
        simp only [hnone]
      · intro now3
        rw [markPositionFailed]
        simp only [hnone]
  · intro st positionId now p hg
    have hfail : markPositionFailed st positionId now
        = { openPositions := mapDelete st.openPositions positionId
            db := savePosition st.db
              { (p : Position) with
                status := .failed
                resolvedAt := some now
                actualProfit := some (-p.totalCost) } } := by
      rw [markPositionFailed, hg]
    have hnone : mapGet (mapDelete st.openPositions positionId) positionId = none :=
      mapGet_mapDelete st.openPositions positionId
    constructor
    · intro o2 payout2 fees2 now2
      rw [resolvePosition, hfail]
      simp only [hnone]
    · intro now3
      rw [markPositionFailed, hfail]
      simp only [hnone]

/-- A concrete open position for the C8 witness. -/
def posW : Position :=
  { id := "pos_1", market := "BTC", openedAt := 1000000, resolvedAt := none,
    status := .opened, costUp := 12/25, costDown := 47/100, sizeUp := 100,
    sizeDown := 100, totalCost := 95, expectedProfit := 5, askUp := 12/25,
    askDown := 47/100, liquidityUp := 500, liquidityDown := 500, outcome := none,
    payout := none, fees := none, actualProfit := none }

/-- The concrete position-manager state of the C8 witness: one open position. -/
def pmW : PMState := { openPositions := [("pos_1", posW)], db := [("pos_1", posW)] }

/-- Witness for C8: resolving the concrete position once succeeds, and the theorem
yields that a second resolution and a subsequent failure-marking are both no-ops. -/
theorem position_settles_at_most_once_witness :
    (resolvePosition (resolvePosition pmW "pos_1" .up 100 0 2000000).2 "pos_1" .down 100 0 2000001
      = (none, (resolvePosition pmW "pos_1" .up 100 0 2000000).2)) ∧
    (markPositionFailed (resolvePosition pmW "pos_1" .up 100 0 2000000).2 "pos_1" 2000002
      = (resolvePosition pmW "pos_1" .up 100 0 2000000).2) := by
  have hrun : resolvePosition pmW "pos_1" .up 100 0 2000000
      = (some { posW with
          status := .resolved
          resolvedAt := some 2000000
          outcome := some .up
          payout := some 100
          fees := some 0
          actualProfit := some (100 - posW.totalCost - 0) },
        { openPositions := mapDelete pmW.openPositions "pos_1"
          db := savePosition pmW.db
            { posW with
              status := .resolved
              resolvedAt := some 2000000
              outcome := some .up
              payout := some 100
              fees := some 0
              actualProfit := some (100 - posW.totalCost - 0) } }) := by
    rw [resolvePosition]
    rfl
  have h := position_settles_at_most_once.1 pmW "pos_1" .up 100 0 2000000 _ _ hrun
  exact ⟨h.2.1 .down 100 0 2000001, h.2.2 2000002⟩

/-- `parseFloat(x) > 0.9` on an outcome-price entry: `none` models an absent or
unparsable entry (`parseFloat` gives NaN, and NaN comparisons are false). -/
def gtPrice : Option ℚ → ℚ → Bool
  | some x, y => decide (y < x)
  | none, _ => false

/-- The market object consumed by `fetchMarketResolution` after JSON decoding
(`resolution-tracker`, lines 168-179): the `closed`/`resolved` flags, the decoded
`outcomes` array and the decoded `outcomePrices` array. -/
structure GammaMarket where
  closed : Bool
  resolved : Bool
  outcomes : Option (List String)
  outcomePrices : Option (List (Option ℚ))
deriving DecidableEq, Repr

/-- The result type of `fetchMarketResolution`. -/
structure ResolutionResult where
  resolved : Bool
  outcome : Option Outcome
deriving DecidableEq, Repr

/-- The `outcomes`-array fallback of `fetchMarketResolution` (lines 193-197 plus the
final `return {resolved: false}`): with at least two outcome strings the market is
reported resolved with the hard-coded default outcome UP. -/
def outcomesFallback (m : GammaMarket) : ResolutionResult :=
  match m.outcomes with
  | some (_ :: _ :: _) => ⟨true, some .up⟩
  | _ => ⟨false, none⟩

/-- The outcome determination of `fetchMarketResolution` (`resolution-tracker`
lines 143-201) after the HTTP fetch and JSON decoding: the 0.9 price test, then the
outcomes-array fallback. -/
def fetchMarketResolution (m : GammaMarket) : ResolutionResult :=
  if m.closed = true ∨ m.resolved = true then
    match m.outcomePrices with
    | some (p0 :: p1 :: _) =>
      if gtPrice p0 (9/10) = true then ⟨true, some .up⟩
      else if gtPrice p1 (9/10) = true then ⟨true, some .down⟩
      else outcomesFallback m
    | _ => outcomesFallback m
  else ⟨false, none⟩

/-- C9 counterexample: a closed market whose outcome prices are 0.5/0.5 (neither
side above 0.9) but whose outcomes array has two entries is reported resolved with
outcome UP — refuting "UP iff up-price > 0.9"; the same happens with outcome
prices entirely absent, refuting "malformed outcome data leaves the position
Open". -/
theorem fetchMarketResolution_defaults_up :
    fetchMarketResolution
      { closed := true, resolved := false, outcomes := some ["Up", "Down"],
        outcomePrices := some [some (1/2), some (1/2)] } = ⟨true, some .up⟩ ∧
    ¬((9 : ℚ)/10 < 1/2) ∧
    fetchMarketResolution
      { closed := true, resolved := false, outcomes := some ["Up", "Down"],
        outcomePrices := none } = ⟨true, some .up⟩ := by
  have hgt : gtPrice (some ((1 : ℚ)/2)) (9/10) = false := by
    rw [gtPrice]
    exact decide_eq_false (by norm_num)
  refine ⟨?_, by norm_num, rfl⟩
  simp [fetchMarketResolution, hgt, outcomesFallback]

/-- C9 (corrected): for a market reported closed or resolved, the outcome is UP
when the first outcome price exceeds 0.9, else DOWN when the second does; but when
NEITHER price passes the test (or the price array is absent, unparsable or shorter
than two entries), the code falls back to the outcomes array: with at least two
outcome strings it reports resolved with default outcome UP, and only otherwise is
the market left unresolved (position stays Open).  A market neither closed nor
resolved is always unresolved. -/
theorem fetchMarketResolution_outcome_rules (m : GammaMarket) :
    (¬(m.closed = true ∨ m.resolved = true) → fetchMarketResolution m = ⟨false, none⟩) ∧
    ((m.closed = true ∨ m.resolved = true) →
      (∀ p0 p1 ps, m.outcomePrices = some (p0 :: p1 :: ps) →
        (gtPrice p0 (9/10) = true → fetchMarketResolution m = ⟨true, some .up⟩) ∧
        (gtPrice p0 (9/10) = false → gtPrice p1 (9/10) = true →
          fetchMarketResolution m = ⟨true, some .down⟩) ∧
        (gtPrice p0 (9/10) = false → gtPrice p1 (9/10) = false →
          fetchMarketResolution m = outcomesFallback m)) ∧
      ((∀ p0 p1 ps, m.outcomePrices ≠ some (p0 :: p1 :: ps)) →
        fetchMarketResolution m = outcomesFallback m)) ∧
    (outcomesFallback m = ⟨true, some .up⟩ ↔
      ∃ o0 o1 os, m.outcomes = some (o0 :: o1 :: os)) := by
  refine ⟨?_, ?_, ?_⟩
  · intro h
    rw [fetchMarketResolution, if_neg h]
  · intro hcl
    constructor
    · intro p0 p1 ps hp
      refine ⟨?_, ?_, ?_⟩
      · intro h0
        rw [fetchMarketResolution, if_pos hcl, hp]
        show (if gtPrice p0 (9/10) = true then (⟨true, some .up⟩ : ResolutionResult)
            else if gtPrice p1 (9/10) = true then ⟨true, some .down⟩
            else outcomesFallback m) = ⟨true, some .up⟩
        rw [if_pos h0]
      · intro h0 h1
        rw [fetchMarketResolution, if_pos hcl, hp]
        show (if gtPrice p0 (9/10) = true then (⟨true, some .up⟩ : ResolutionResult)
            else if gtPrice p1 (9/10) = true then ⟨true, some .down⟩
            else outcomesFallback m) = ⟨true, some .down⟩
        rw [h0, if_neg Bool.false_ne_true, if_pos h1]
      · intro h0 h1
        rw [fetchMarketResolution, if_pos hcl, hp]
        show (if gtPrice p0 (9/10) = true then (⟨true, some .up⟩ : ResolutionResult)
            else if gtPrice p1 (9/10) = true then ⟨true, some .down⟩
            else outcomesFallback m) = outcomesFallback m
        rw [h0, if_neg Bool.false_ne_true, h1, if_neg Bool.false_ne_true]
    · intro hnp
      rw [fetchMarketResolution, if_pos hcl]
      rcases hp : m.outcomePrices with _ | prices
      · rfl
      · rcases prices with _ | ⟨p0, rest⟩
        · rfl
        · rcases rest with _ | ⟨p1, ps⟩
          · rfl
          · exact absurd hp (hnp p0 p1 ps)
  · rw [outcomesFallback]
    rcases ho : m.outcomes with _ | os
    · simp
    · rcases os with _ | ⟨o0, rest⟩
      · simp
      · rcases rest with _ | ⟨o1, rest2⟩
        · simp
        · simp

/-- Witness for C9: on a closed market with prices 0.95/0.05 the rules give UP,
and on the 0.5/0.5 market the fallback branch fires. -/
theorem fetchMarketResolution_outcome_rules_witness :
    fetchMarketResolution
      { closed := true, resolved := false, outcomes := some ["Up", "Down"],
        outcomePrices := some [some (19/20), some (1/20)] } = ⟨true, some .up⟩ ∧
    fetchMarketResolution
      { closed := true, resolved := false, outcomes := some ["Up", "Down"],
        outcomePrices := some [some (1/2), some (1/2)] }
      = outcomesFallback
          { closed := true, resolved := false, outcomes := some ["Up", "Down"],
            outcomePrices := some [some (1/2), some (1/2)] } := by
  constructor
  · exact (((fetchMarketResolution_outcome_rules _).2.1 (Or.inl rfl)).1
      (some (19/20)) (some (1/20)) [] rfl).1
      (by rw [gtPrice, decide_eq_true (by norm_num : (9:ℚ)/10 < 19/20)])
  · exact (((fetchMarketResolution_outcome_rules _).2.1 (Or.inl rfl)).1
      (some (1/2)) (some (1/2)) [] rfl).2.2
      (by rw [gtPrice, decide_eq_false (by norm_num : ¬((9:ℚ)/10 < 1/2))])
      (by rw [gtPrice, decide_eq_false (by norm_num : ¬((9:ℚ)/10 < 1/2))])


end Polybot
